import Mathlib

/-!
Verification of the NYLE formant-extraction script.

A shallow embedding of `extract_formants.py`: the per-file extraction
pipeline (`extract_formants_from_file`) and the batch driver's combined
output mode (`main`).  Floats are modelled as rationals, the parselmouth
formant track as an abstract function `ℕ → ℚ → Option ℚ` (`none` standing
for the NaN returned when estimation is undefined), and Python dicts as
insertion-ordered association lists with overwrite-on-reassignment
semantics.
-/

namespace NYLE

/-- A labeled interval of a TextGrid tier: `interval.text`, `interval.xmin`,
`interval.xmax` in the source. -/
structure Interval where
  text : String
  xmin : ℚ
  xmax : ℚ
deriving DecidableEq

/-- A parsed TextGrid: ordered pairs of tier name and tier intervals,
mirroring `grid.items()`. -/
abbrev TextGrid := List (String × List Interval)

/-- A value stored in a record dict: Python strings, floats (as ℚ),
`None`, and the NaN that `get_value_at_time` yields when the formant is
undefined. -/
inductive Val where
  | s : String → Val
  | q : ℚ → Val
  | pynone : Val
  | nan : Val
deriving DecidableEq

/-- A Python dict modelled as an insertion-ordered association list. -/
abbrev Record := List (String × Val)

/-- Python `key in hay` on strings: substring containment. -/
def containsSub (hay needle : String) : Bool :=
  (List.range (hay.toList.length + 1)).any
    (fun k => List.isPrefixOf needle.toList (hay.toList.drop k))

/-- Helper for `pySplit`: walk the characters, accumulating the current
(reversed) token. -/
def pySplitChars : List Char → List Char → List String
  | [], acc => if acc = [] then [] else [String.mk acc.reverse]
  | c :: cs, acc =>
      if c.isWhitespace then
        (if acc = [] then [] else [String.mk acc.reverse]) ++ pySplitChars cs []
      else pySplitChars cs (c :: acc)

/-- Python `s.split()`: split on whitespace, dropping empty pieces. -/
def pySplit (s : String) : List String :=
  pySplitChars s.toList []

/-- Python dict assignment `d[k] = v`: overwrite in place if the key is
present (keeping its position), else append. -/
def dictInsert (r : Record) (k : String) (v : Val) : Record :=
  if k ∈ r.map Prod.fst then
    r.map (fun kv => if kv.1 = k then (k, v) else kv)
  else
    r ++ [(k, v)]

/-- Sequence of dict assignments. -/
def dictExtend (r : Record) (kvs : List (String × Val)) : Record :=
  kvs.foldl (fun a kv => dictInsert a kv.1 kv.2) r

/-- The selection test of lines 49–53: `interval.text in phones or
("ALL_VOWELS" in phones and interval.containsvowel() and interval.text !=
"sil")`.  `containsvowel` is the external textgrids-library predicate,
taken as a parameter `cv` on the interval's label. -/
def interval_matches (phones : List String) (cv : String → Bool)
    (text : String) : Bool :=
  phones.contains text ||
    (phones.contains "ALL_VOWELS" && cv text && text != "sil")

/-- Lines 79–82: absolute time of a relative sample point inside an
interval, `interval.xmin + (interval.xmax - interval.xmin) * point`. -/
def time_point (xmin xmax point : ℚ) : ℚ :=
  xmin + (xmax - xmin) * point

/-- Value stored in the dict for one `formants.get_value_at_time` query: a defined value or
the NaN sentinel. -/
def trackVal (track : ℕ → ℚ → Option ℚ) (n : ℕ) (t : ℚ) : Val :=
  match track n t with
  | some v => Val.q v
  | none => Val.nan

/-- Out-of-range indexing default (never reached on the guarded paths). -/
def dfltInterval : Interval := ⟨"", 0, 0⟩

/-- Column name `f"F{formant_number}"`. -/
def fkey (n : ℕ) : String := "F" ++ toString n

/-- Column name `f"following_F{formant_number}"`. -/
def follkey (n : ℕ) : String := "following_F" ++ toString n

/-- The guard of lines 94–98: `include_following and following_phone and
i + 1 < len(tier)`.  The local `following_phone` is `None` when `i` is the
last index and the successor's label otherwise, so as a Python truth value
the conjunction holds iff `include_following` is set, a successor exists,
and the successor's label is not the empty string. -/
def foll_cond (tier : List Interval) (i : ℕ)
    (include_following : Bool) : Bool :=
  include_following && decide (i + 1 < tier.length)
    && ((tier.getD (i + 1) dfltInterval).text != "")

/-- Lines 64–120: the dict built for one `(interval, point)` pair.
`i` is the interval's index in `tier`. -/
def build_formant_dict (file speaker : String) (tier : List Interval)
    (i : ℕ) (interval : Interval) (desired_formants : List ℕ)
    (track : ℕ → ℚ → Option ℚ) (include_following : Bool)
    (point : ℚ) : Record :=
  let preceding_phone : Val :=
    if 0 < i then Val.s ((tier.getD (i - 1) dfltInterval).text) else Val.pynone
  let following_phone : Val :=
    if i + 1 < tier.length then Val.s ((tier.getD (i + 1) dfltInterval).text)
    else Val.pynone
  let base : Record :=
    [("file", Val.s file), ("speaker", Val.s speaker),
     ("phone", Val.s interval.text), ("preceding_phone", preceding_phone),
     ("following_phone", following_phone), ("point", Val.q point),
     ("interval_start", Val.q interval.xmin),
     ("interval_end", Val.q interval.xmax)]
  let t := time_point interval.xmin interval.xmax point
  let cur := desired_formants.map
    (fun n => (fkey n, trackVal track n t))
  let foll :=
    if foll_cond tier i include_following then
      let fi := tier.getD (i + 1) dfltInterval
      let ft := time_point fi.xmin fi.xmax point
      desired_formants.map
        (fun n => (follkey n, trackVal track n ft))
    else []
  dictExtend (dictExtend base cur) foll

/-- Lines 48–120: the loop `for i, interval in enumerate(tier)`, carried
out from index `i` over the remaining intervals `rest` (`rest = tier.drop
i` at every call from `process_tier`). -/
def process_tier_from (file speaker : String) (tier : List Interval)
    (phones : List String) (desired_formants : List ℕ) (points : List ℚ)
    (include_following : Bool) (cv : String → Bool)
    (track : ℕ → ℚ → Option ℚ) (i : ℕ) (rest : List Interval) :
    List Record :=
  match rest with
  | [] => []
  | interval :: tl =>
      (if interval_matches phones cv interval.text then
        points.map (build_formant_dict file speaker tier i interval
          desired_formants track include_following)
      else []) ++
      process_tier_from file speaker tier phones desired_formants points
        include_following cv track (i + 1) tl

/-- All records produced from one resolved tier. -/
def process_tier (file speaker : String) (tier : List Interval)
    (phones : List String) (desired_formants : List ℕ) (points : List ℚ)
    (include_following : Bool) (cv : String → Bool)
    (track : ℕ → ℚ → Option ℚ) : List Record :=
  process_tier_from file speaker tier phones desired_formants points
    include_following cv track 0 tier

/-- Lines 31–121, `extract_formants_from_file`.  `file` is the audio
file's extension-stripped basename, `filename` the TextGrid file's
basename, `grid` the parsed TextGrid, `track` the formant track built from
the audio. -/
def extract_formants_from_file (file filename : String) (grid : TextGrid)
    (phones : List String) (desired_formants : List ℕ) (points : List ℚ)
    (include_following : Bool) (cv : String → Bool)
    (track : ℕ → ℚ → Option ℚ) : List Record :=
  grid.foldr
    (fun tp acc =>
      (if containsSub tp.1 "phones" then
        let speaker_from_tier := (pySplit tp.1).headD ""
        if containsSub filename speaker_from_tier then
          process_tier file speaker_from_tier tp.2 phones desired_formants
            points include_following cv track
        else []
      else []) ++ acc)
    []

/-- One matched audio/TextGrid pair: the shared extension-stripped base
name, the parsed grid, and the formant track built from the audio file
(`sound.to_formant_burg`, one per file). -/
structure FilePair where
  base : String
  grid : TextGrid
  track : ℕ → ℚ → Option ℚ

/-- The run configuration taken from the command line. -/
structure Config where
  phones : List String
  desired_formants : List ℕ
  points : List ℚ
  include_following : Bool
  cv : String → Bool

/-- The call of `extract_formants_from_file` made by `main`: the audio path is
`<base>.wav` (so the record's `file` field is `base`) and the TextGrid
basename is `<base>.TextGrid`. -/
def extractPair (cfg : Config) (fp : FilePair) : List Record :=
  extract_formants_from_file fp.base (fp.base ++ ".TextGrid") fp.grid
    cfg.phones cfg.desired_formants cfg.points cfg.include_following
    cfg.cv fp.track

/-- Row projection of `csv.DictWriter._dict_to_list` with the default `extrasaction="raise"`
and `restval=None`: a row with a key outside `fieldnames` raises
`ValueError`; missing keys are filled with the rest value. -/
def dict_to_row (fieldnames : List String) (r : Record) :
    Except Unit (List Val) :=
  if r.any (fun kv => !(fieldnames.contains kv.1)) then Except.error ()
  else Except.ok (fieldnames.map (fun k => (List.lookup k r).getD Val.pynone))

/-- Python `writer.writerows`: fails at the first offending row. -/
def write_rows (fieldnames : List String) (rs : List Record) :
    Except Unit (List (List Val)) :=
  rs.mapM (dict_to_row fieldnames)

/-- Lines 247–288, the combined (non-`separate_files`) output mode.
`orderedPairs` is the matched set in its (arbitrary) iteration order.
Result: `.ok none` — the file stays empty (no header, no rows) because the
first file yielded no records, and the remaining files are never
processed; `.ok (some (header, rows))` — the written table; `.error ()` —
a `ValueError` from the writer aborts the run. -/
def combined_main (cfg : Config) (orderedPairs : List FilePair) :
    Except Unit (Option (List String × List (List Val))) :=
  match orderedPairs with
  | [] => Except.ok none
  | first :: rest =>
      match extractPair cfg first with
      | [] => Except.ok none
      | r :: rs =>
          let fieldnames := r.map Prod.fst
          do
            let firstRows ← write_rows fieldnames (r :: rs)
            let restRows ← write_rows fieldnames
              ((rest.map (extractPair cfg)).flatten)
            pure (some (fieldnames, firstRows ++ restRows))

/-- The two fatal configuration errors of `main` (lines 183–205). -/
inductive ConfigError where
  | tooManyPoints
  | noMatchedFiles
deriving DecidableEq

/-- Lines 197–200: base names present in both directories, minus the
exclusion list. -/
def matched_bases (audio_bases textgrid_bases files_to_exclude :
    List String) : List String :=
  (audio_bases.filter (fun b => textgrid_bases.contains b)).filter
    (fun b => !files_to_exclude.contains b)

/-- Lines 179–288 of `main`, combined output mode: the configuration
checks, then the combined write.  `audio_bases` / `textgrid_bases` are the
extension-stripped `.wav` / `.TextGrid` basenames found in the two
directories, `order` the iteration order of the matched set, and `grids` /
`tracks` give each base name's parsed TextGrid and formant track. -/
def main_run (cfg : Config)
    (audio_bases textgrid_bases files_to_exclude : List String)
    (order : List String) (grids : String → TextGrid)
    (tracks : String → ℕ → ℚ → Option ℚ) :
    Except ConfigError (Except Unit (Option (List String × List (List Val)))) :=
  if 3 < cfg.points.length then Except.error ConfigError.tooManyPoints
  else if (matched_bases audio_bases textgrid_bases files_to_exclude).isEmpty
    then Except.error ConfigError.noMatchedFiles
  else Except.ok (combined_main cfg
    (order.map (fun b => ⟨b, grids b, tracks b⟩)))

/-! Dictionary lemmas. -/

theorem lookup_cons' (a : String) (b : Val) (l : Record) (j : String) :
    List.lookup j ((a, b) :: l) =
      if j = a then some b else List.lookup j l := by
  rw [List.lookup_cons]
  by_cases h : j = a
  · simp [h]
  · have hb : (j == a) = false := by simp [h]
    rw [hb, if_neg h]

theorem lookup_not_mem_none (r : Record) (j : String)
    (h : j ∉ r.map Prod.fst) : List.lookup j r = none := by
  induction r with
  | nil => rfl
  | cons hd tl ih =>
      obtain ⟨a, b⟩ := hd
      simp only [List.map_cons, List.mem_cons, not_or] at h
      rw [lookup_cons', if_neg h.1]
      exact ih h.2

theorem keys_dictInsert (r : Record) (k : String) (v : Val) :
    (dictInsert r k v).map Prod.fst =
      if k ∈ r.map Prod.fst then r.map Prod.fst
      else r.map Prod.fst ++ [k] := by
  unfold dictInsert
  split
  · rw [List.map_map]
    refine List.map_congr_left ?_
    intro kv _
    by_cases hk : kv.1 = k
    · simp [hk]
    · simp [hk]
  · simp

theorem mem_keys_dictInsert (r : Record) (k j : String) (v : Val) :
    j ∈ (dictInsert r k v).map Prod.fst ↔ j ∈ r.map Prod.fst ∨ j = k := by
  rw [keys_dictInsert]
  split
  · rename_i h
    constructor
    · exact Or.inl
    · rintro (hj | rfl)
      · exact hj
      · exact h
  · simp

theorem lookup_overwrite_ne (r : Record) (k j : String) (v : Val)
    (h : j ≠ k) :
    List.lookup j (r.map (fun kv => if kv.1 = k then (k, v) else kv)) =
      List.lookup j r := by
  induction r with
  | nil => rfl
  | cons hd tl ih =>
      obtain ⟨a, b⟩ := hd
      by_cases hk : a = k
      · subst hk
        simp only [List.map_cons, eq_self_iff_true, if_true]
        rw [lookup_cons', lookup_cons', if_neg h, if_neg h]
        exact ih
      · simp only [List.map_cons, hk, if_false]
        rw [lookup_cons', lookup_cons']
        by_cases hj : j = a
        · simp [hj]
        · simp [hj, ih]

theorem lookup_overwrite_self (r : Record) (k : String) (v : Val)
    (h : k ∈ r.map Prod.fst) :
    List.lookup k (r.map (fun kv => if kv.1 = k then (k, v) else kv)) =
      some v := by
  induction r with
  | nil => simp at h
  | cons hd tl ih =>
      obtain ⟨a, b⟩ := hd
      by_cases hk : a = k
      · subst hk
        simp only [List.map_cons, eq_self_iff_true, if_true]
        rw [lookup_cons', if_pos rfl]
      · simp only [List.map_cons, hk, if_false]
        rw [lookup_cons', if_neg (Ne.symm hk)]
        refine ih ?_
        simp only [List.map_cons, List.mem_cons] at h
        rcases h with h | h
        · exact absurd h.symm hk
        · exact h

theorem lookup_dictInsert_ne (r : Record) (k j : String) (v : Val)
    (h : j ≠ k) :
    List.lookup j (dictInsert r k v) = List.lookup j r := by
  unfold dictInsert
  split
  · exact lookup_overwrite_ne r k j v h
  · rw [List.lookup_append,
      show List.lookup j [(k, v)] = none by rw [lookup_cons', if_neg h]; rfl]
    cases List.lookup j r <;> rfl

theorem lookup_dictInsert_self (r : Record) (k : String) (v : Val) :
    List.lookup k (dictInsert r k v) = some v := by
  unfold dictInsert
  split
  · rename_i h
    exact lookup_overwrite_self r k v h
  · rename_i h
    rw [List.lookup_append, lookup_not_mem_none r k h]
    rw [show List.lookup k [(k, v)] = some v by
      rw [lookup_cons', if_pos rfl]]
    rfl

theorem mem_keys_dictExtend (r : Record) (kvs : List (String × Val))
    (j : String) :
    j ∈ (dictExtend r kvs).map Prod.fst ↔
      j ∈ r.map Prod.fst ∨ ∃ p ∈ kvs, p.1 = j := by
  induction kvs generalizing r with
  | nil => simp [dictExtend]
  | cons hd tl ih =>
      show j ∈ (dictExtend (dictInsert r hd.1 hd.2) tl).map Prod.fst ↔ _
      rw [ih, mem_keys_dictInsert]
      constructor
      · rintro ((hj | rfl) | hex)
        · exact Or.inl hj
        · exact Or.inr ⟨hd, List.mem_cons_self .., rfl⟩
        · obtain ⟨p, hp, rfl⟩ := hex
          exact Or.inr ⟨p, List.mem_cons_of_mem _ hp, rfl⟩
      · rintro (hj | ⟨p, hp, rfl⟩)
        · exact Or.inl (Or.inl hj)
        · rcases List.mem_cons.mp hp with rfl | hp
          · exact Or.inl (Or.inr rfl)
          · exact Or.inr ⟨p, hp, rfl⟩

theorem lookup_dictExtend_of_ne (r : Record) (kvs : List (String × Val))
    (j : String) (h : ∀ p ∈ kvs, p.1 ≠ j) :
    List.lookup j (dictExtend r kvs) = List.lookup j r := by
  induction kvs generalizing r with
  | nil => rfl
  | cons hd tl ih =>
      show List.lookup j (dictExtend (dictInsert r hd.1 hd.2) tl) = _
      rw [ih _ (fun p hp => h p (List.mem_cons_of_mem _ hp)),
        lookup_dictInsert_ne]
      exact fun he => h hd (List.mem_cons_self ..) (he ▸ rfl)

theorem lookup_dictExtend_all_eq (r : Record) (kvs : List (String × Val))
    (j : String) (v : Val) (hex : ∃ p ∈ kvs, p.1 = j)
    (hall : ∀ p ∈ kvs, p.1 = j → p.2 = v) :
    List.lookup j (dictExtend r kvs) = some v := by
  induction kvs generalizing r with
  | nil => simp at hex
  | cons hd tl ih =>
      show List.lookup j (dictExtend (dictInsert r hd.1 hd.2) tl) = some v
      by_cases hex' : ∃ p ∈ tl, p.1 = j
      · exact ih _ hex' (fun p hp => hall p (List.mem_cons_of_mem _ hp))
      · obtain ⟨p, hp, hpj⟩ := hex
        rcases List.mem_cons.mp hp with rfl | hp
        · push_neg at hex'
          rw [lookup_dictExtend_of_ne _ _ _ hex', hpj,
            hall p (List.mem_cons_self ..) hpj, lookup_dictInsert_self]
        · exact absurd ⟨p, hp, hpj⟩ hex'

/-! Key facts.

The CLI restricts `--formants` to `choices=[1, 2, 3, 4]`, so every formant
number occurring in a run lies in `[1, 2, 3, 4]`; on that range the column
names are pairwise distinct and disjoint from the context columns. -/

/-- The eight context columns set on lines 65–76, in insertion order. -/
def base_keys : List String :=
  ["file", "speaker", "phone", "preceding_phone", "following_phone",
   "point", "interval_start", "interval_end"]

theorem fkey_not_base (m : ℕ) (hm : m ∈ ([1, 2, 3, 4] : List ℕ)) :
    fkey m ∉ base_keys := by
  fin_cases hm <;> decide

theorem follkey_not_base (m : ℕ) (hm : m ∈ ([1, 2, 3, 4] : List ℕ)) :
    follkey m ∉ base_keys := by
  fin_cases hm <;> decide

theorem fkey_ne_follkey (m n : ℕ) (hm : m ∈ ([1, 2, 3, 4] : List ℕ))
    (hn : n ∈ ([1, 2, 3, 4] : List ℕ)) : fkey m ≠ follkey n := by
  fin_cases hm <;> fin_cases hn <;> decide

theorem fkey_inj (m n : ℕ) (hm : m ∈ ([1, 2, 3, 4] : List ℕ))
    (hn : n ∈ ([1, 2, 3, 4] : List ℕ)) (h : fkey m = fkey n) : m = n := by
  fin_cases hm <;> fin_cases hn <;> revert h <;> decide

theorem follkey_inj (m n : ℕ) (hm : m ∈ ([1, 2, 3, 4] : List ℕ))
    (hn : n ∈ ([1, 2, 3, 4] : List ℕ)) (h : follkey m = follkey n) :
    m = n := by
  fin_cases hm <;> fin_cases hn <;> revert h <;> decide

/-! Characterization of the record built for one (interval, point). -/

theorem mem_keys_build (file speaker : String) (tier : List Interval)
    (i : ℕ) (interval : Interval) (desired_formants : List ℕ)
    (track : ℕ → ℚ → Option ℚ) (include_following : Bool) (point : ℚ)
    (j : String) :
    j ∈ (build_formant_dict file speaker tier i interval desired_formants
        track include_following point).map Prod.fst ↔
      j ∈ base_keys ∨ (∃ m ∈ desired_formants, fkey m = j) ∨
        (foll_cond tier i include_following = true ∧
          ∃ m ∈ desired_formants, follkey m = j) := by
  simp only [build_formant_dict]
  rw [mem_keys_dictExtend, mem_keys_dictExtend]
  constructor
  · rintro ((hb | hc) | hf)
    · exact Or.inl hb
    · obtain ⟨p, hp, rfl⟩ := hc
      obtain ⟨m, hm, rfl⟩ := List.mem_map.mp hp
      exact Or.inr (Or.inl ⟨m, hm, rfl⟩)
    · obtain ⟨p, hp, rfl⟩ := hf
      split at hp
      · rename_i hcond
        obtain ⟨m, hm, rfl⟩ := List.mem_map.mp hp
        exact Or.inr (Or.inr ⟨hcond, m, hm, rfl⟩)
      · simp at hp
  · rintro (hb | ⟨m, hm, rfl⟩ | ⟨hcond, m, hm, rfl⟩)
    · exact Or.inl (Or.inl hb)
    · exact Or.inl (Or.inr ⟨(fkey m, _), List.mem_map_of_mem _ hm, rfl⟩)
    · refine Or.inr ?_
      rw [if_pos hcond]
      exact ⟨(follkey m, _), List.mem_map_of_mem _ hm, rfl⟩

theorem lookup_build_base (file speaker : String) (tier : List Interval)
    (i : ℕ) (interval : Interval) (desired_formants : List ℕ)
    (track : ℕ → ℚ → Option ℚ) (include_following : Bool) (point : ℚ)
    (hd : ∀ m ∈ desired_formants, m ∈ ([1, 2, 3, 4] : List ℕ))
    (j : String) (hj : j ∈ base_keys) :
    List.lookup j (build_formant_dict file speaker tier i interval
        desired_formants track include_following point) =
      List.lookup j
        [("file", Val.s file), ("speaker", Val.s speaker),
         ("phone", Val.s interval.text),
         ("preceding_phone",
           if 0 < i then Val.s ((tier.getD (i - 1) dfltInterval).text)
           else Val.pynone),
         ("following_phone",
           if i + 1 < tier.length then
             Val.s ((tier.getD (i + 1) dfltInterval).text)
           else Val.pynone),
         ("point", Val.q point),
         ("interval_start", Val.q interval.xmin),
         ("interval_end", Val.q interval.xmax)] := by
  simp only [build_formant_dict]
  rw [lookup_dictExtend_of_ne, lookup_dictExtend_of_ne]
  · intro p hp
    obtain ⟨m, hm, rfl⟩ := List.mem_map.mp hp
    exact fun he => fkey_not_base m (hd m hm)
      ((show fkey m = j from he) ▸ hj)
  · intro p hp
    split at hp
    · obtain ⟨m, hm, rfl⟩ := List.mem_map.mp hp
      exact fun he => follkey_not_base m (hd m hm)
        ((show follkey m = j from he) ▸ hj)
    · simp at hp

theorem lookup_build_fkey (file speaker : String) (tier : List Interval)
    (i : ℕ) (interval : Interval) (desired_formants : List ℕ)
    (track : ℕ → ℚ → Option ℚ) (include_following : Bool) (point : ℚ)
    (hd : ∀ m ∈ desired_formants, m ∈ ([1, 2, 3, 4] : List ℕ))
    (n : ℕ) (hn : n ∈ desired_formants) :
    List.lookup (fkey n) (build_formant_dict file speaker tier i interval
        desired_formants track include_following point) =
      some (trackVal track n
        (time_point interval.xmin interval.xmax point)) := by
  simp only [build_formant_dict]
  rw [lookup_dictExtend_of_ne]
  · refine lookup_dictExtend_all_eq _ _ _ _
      ⟨(fkey n, _), List.mem_map_of_mem _ hn, rfl⟩ ?_
    intro p hp he
    obtain ⟨m, hm, rfl⟩ := List.mem_map.mp hp
    have : m = n := fkey_inj m n (hd m hm) (hd n hn) he
    rw [this]
  · intro p hp
    split at hp
    · obtain ⟨m, hm, rfl⟩ := List.mem_map.mp hp
      exact Ne.symm (fkey_ne_follkey n m (hd n hn) (hd m hm))
    · simp at hp

theorem lookup_build_follkey (file speaker : String) (tier : List Interval)
    (i : ℕ) (interval : Interval) (desired_formants : List ℕ)
    (track : ℕ → ℚ → Option ℚ) (include_following : Bool) (point : ℚ)
    (hd : ∀ m ∈ desired_formants, m ∈ ([1, 2, 3, 4] : List ℕ))
    (n : ℕ) (hn : n ∈ desired_formants)
    (hcond : foll_cond tier i include_following = true) :
    List.lookup (follkey n) (build_formant_dict file speaker tier i
        interval desired_formants track include_following point) =
      some (trackVal track n
        (time_point (tier.getD (i + 1) dfltInterval).xmin
          (tier.getD (i + 1) dfltInterval).xmax point)) := by
  simp only [build_formant_dict]
  rw [if_pos hcond]
  refine lookup_dictExtend_all_eq _ _ _ _
    ⟨(follkey n, _), List.mem_map_of_mem _ hn, rfl⟩ ?_
  intro p hp he
  obtain ⟨m, hm, rfl⟩ := List.mem_map.mp hp
  have : m = n := follkey_inj m n (hd m hm) (hd n hn) he
  rw [this]

theorem lookup_build_phone (file speaker : String) (tier : List Interval)
    (i : ℕ) (interval : Interval) (desired_formants : List ℕ)
    (track : ℕ → ℚ → Option ℚ) (include_following : Bool) (point : ℚ)
    (hd : ∀ m ∈ desired_formants, m ∈ ([1, 2, 3, 4] : List ℕ)) :
    List.lookup "phone" (build_formant_dict file speaker tier i interval
        desired_formants track include_following point) =
      some (Val.s interval.text) := by
  rw [lookup_build_base file speaker tier i interval desired_formants track
    include_following point hd "phone" (by decide)]
  rfl

theorem lookup_build_point (file speaker : String) (tier : List Interval)
    (i : ℕ) (interval : Interval) (desired_formants : List ℕ)
    (track : ℕ → ℚ → Option ℚ) (include_following : Bool) (point : ℚ)
    (hd : ∀ m ∈ desired_formants, m ∈ ([1, 2, 3, 4] : List ℕ)) :
    List.lookup "point" (build_formant_dict file speaker tier i interval
        desired_formants track include_following point) =
      some (Val.q point) := by
  rw [lookup_build_base file speaker tier i interval desired_formants track
    include_following point hd "point" (by decide)]
  rfl

/-- Every record produced by the tier loop is the dict built for some
matching interval of the tier and some requested point. -/
theorem mem_process_tier_from (file speaker : String) (tier : List Interval)
    (phones : List String) (desired_formants : List ℕ) (points : List ℚ)
    (include_following : Bool) (cv : String → Bool)
    (track : ℕ → ℚ → Option ℚ) (i : ℕ) (rest : List Interval) (r : Record)
    (hr : r ∈ process_tier_from file speaker tier phones desired_formants
      points include_following cv track i rest) :
    ∃ j interval p, interval ∈ rest ∧
      interval_matches phones cv interval.text = true ∧
      r = build_formant_dict file speaker tier j interval desired_formants
        track include_following p := by
  induction rest generalizing i with
  | nil => simp [process_tier_from] at hr
  | cons hd tl ih =>
      simp only [process_tier_from] at hr
      rcases List.mem_append.mp hr with h1 | h2
      · split at h1
        · rename_i hm
          obtain ⟨p, hp, rfl⟩ := List.mem_map.mp h1
          exact ⟨i, hd, p, List.mem_cons_self .., hm, rfl⟩
        · simp at h1
      · obtain ⟨j, iv, p, hiv, hm, he⟩ := ih _ h2
        exact ⟨j, iv, p, List.mem_cons_of_mem _ hiv, hm, he⟩

theorem process_tier_from_length (file speaker : String)
    (tier : List Interval) (phones : List String)
    (desired_formants : List ℕ) (points : List ℚ)
    (include_following : Bool) (cv : String → Bool)
    (track : ℕ → ℚ → Option ℚ) (i : ℕ) (rest : List Interval) :
    (process_tier_from file speaker tier phones desired_formants points
        include_following cv track i rest).length =
      (rest.filter
        (fun interval => interval_matches phones cv interval.text)).length
        * points.length := by
  induction rest generalizing i with
  | nil => simp [process_tier_from]
  | cons hd tl ih =>
      simp only [process_tier_from, List.length_append, ih]
      by_cases h : interval_matches phones cv hd.text = true
      · rw [if_pos h, List.length_map,
          @List.filter_cons_of_pos _
            (fun interval => interval_matches phones cv interval.text)
            hd tl h,
          List.length_cons]
        ring
      · rw [if_neg h,
          @List.filter_cons_of_neg _
            (fun interval => interval_matches phones cv interval.text)
            hd tl h]
        simp

/-! Claim theorems. -/

/-- Claim C3: for a single phonetic tier `"spk1 - phones"`, audio
`spk1_sess1.wav`, intervals `[("sil",0,0.5), ("a",0.5,1.0), ("t",1.0,1.3)]`,
phones `["a"]`, formants `[1,2]`, points `[0.5]`, following enabled, the
extraction yields exactly one record: phone `"a"`, preceding `"sil"`,
following `"t"`, interval `[0.5, 1.0]`, `F1`/`F2` queried at `0.75`, and
`following_F1`/`following_F2` queried at `1.15` — for every formant track
and every vowel predicate. -/
theorem C3_end_to_end (cv : String → Bool) (track : ℕ → ℚ → Option ℚ) :
    extract_formants_from_file "spk1_sess1" "spk1_sess1.TextGrid"
      [("spk1 - phones",
        [⟨"sil", 0, 1/2⟩, ⟨"a", 1/2, 1⟩, ⟨"t", 1, 13/10⟩])]
      ["a"] [1, 2] [1/2] true cv track =
      [[("file", Val.s "spk1_sess1"), ("speaker", Val.s "spk1"),
        ("phone", Val.s "a"), ("preceding_phone", Val.s "sil"),
        ("following_phone", Val.s "t"), ("point", Val.q (1/2)),
        ("interval_start", Val.q (1/2)), ("interval_end", Val.q 1),
        ("F1", trackVal track 1 (3/4)), ("F2", trackVal track 2 (3/4)),
        ("following_F1", trackVal track 1 (23/20)),
        ("following_F2", trackVal track 2 (23/20))]] := by
  have h1 : (3/4 : ℚ) = time_point (1/2) 1 (1/2) := by
    norm_num [time_point]
  have h2 : (23/20 : ℚ) = time_point 1 (13/10) (1/2) := by
    norm_num [time_point]
  rw [h1, h2]
  rfl

/-- Claim C4: the formant track is queried at exactly
`start + (end - start) * point`; the rows for an interval are one per
entry of `points` (duplicates included, each with its own `point` field);
and for start 1, end 2, point 0.25 the time is exactly 1.25. -/
theorem C4_point_to_time (file speaker : String) (tier : List Interval)
    (i : ℕ) (interval : Interval) (desired_formants : List ℕ)
    (track : ℕ → ℚ → Option ℚ) (include_following : Bool) (p : ℚ)
    (points : List ℚ) (n j : ℕ)
    (hd : ∀ m ∈ desired_formants, m ∈ ([1, 2, 3, 4] : List ℕ))
    (hn : n ∈ desired_formants) (hj : j < points.length) :
    List.lookup (fkey n) (build_formant_dict file speaker tier i interval
        desired_formants track include_following p) =
      some (trackVal track n
        (interval.xmin + (interval.xmax - interval.xmin) * p))
    ∧ (points.map (build_formant_dict file speaker tier i interval
        desired_formants track include_following)).length = points.length
    ∧ List.lookup "point" ((points.map (build_formant_dict file speaker
        tier i interval desired_formants track include_following)).get
          ⟨j, by rw [List.length_map]; exact hj⟩) =
        some (Val.q (points.get ⟨j, hj⟩))
    ∧ time_point 1 2 (1/4) = 5/4 := by
  refine ⟨?_, List.length_map .., ?_, by norm_num [time_point]⟩
  · rw [lookup_build_fkey file speaker tier i interval desired_formants
      track include_following p hd n hn]
    rfl
  · rw [List.get_map]
    exact lookup_build_point file speaker tier i interval desired_formants
      track include_following _ hd

/-- Claim C5: the record built for the interval at index `k` carries the
predecessor's label (absent, as Python `None`, iff `k = 0`) and the
successor's label (absent iff `k` is the last index), and the absent
marker is distinct from the empty string. -/
theorem C5_neighbor_labels (file speaker : String) (tier : List Interval)
    (k : ℕ) (desired_formants : List ℕ) (track : ℕ → ℚ → Option ℚ)
    (include_following : Bool) (point : ℚ) (hk : k < tier.length)
    (hd : ∀ m ∈ desired_formants, m ∈ ([1, 2, 3, 4] : List ℕ)) :
    (List.lookup "preceding_phone" (build_formant_dict file speaker tier k
        (tier.get ⟨k, hk⟩) desired_formants track include_following point)
        = some Val.pynone ↔ k = 0)
    ∧ (∀ hk0 : 0 < k,
        List.lookup "preceding_phone" (build_formant_dict file speaker tier
            k (tier.get ⟨k, hk⟩) desired_formants track include_following
            point) =
          some (Val.s ((tier.get ⟨k - 1, by omega⟩).text)))
    ∧ (List.lookup "following_phone" (build_formant_dict file speaker tier
        k (tier.get ⟨k, hk⟩) desired_formants track include_following
        point) = some Val.pynone ↔ k = tier.length - 1)
    ∧ (∀ hk1 : k + 1 < tier.length,
        List.lookup "following_phone" (build_formant_dict file speaker tier
            k (tier.get ⟨k, hk⟩) desired_formants track include_following
            point) =
          some (Val.s ((tier.get ⟨k + 1, hk1⟩).text)))
    ∧ Val.pynone ≠ Val.s "" := by
  have hbase := lookup_build_base file speaker tier k (tier.get ⟨k, hk⟩)
    desired_formants track include_following point hd
  have hprec : List.lookup "preceding_phone"
      (build_formant_dict file speaker tier k (tier.get ⟨k, hk⟩)
        desired_formants track include_following point) =
      some (if 0 < k then Val.s ((tier.getD (k - 1) dfltInterval).text)
        else Val.pynone) := by
    rw [hbase "preceding_phone" (by decide)]
    rfl
  have hfoll : List.lookup "following_phone"
      (build_formant_dict file speaker tier k (tier.get ⟨k, hk⟩)
        desired_formants track include_following point) =
      some (if k + 1 < tier.length then
          Val.s ((tier.getD (k + 1) dfltInterval).text)
        else Val.pynone) := by
    rw [hbase "following_phone" (by decide)]
    rfl
  refine ⟨?_, ?_, ?_, ?_, by simp⟩
  · rw [hprec]
    by_cases h0 : 0 < k
    · rw [if_pos h0]
      simp only [Option.some.injEq]
      constructor
      · intro he
        exact absurd he.symm (by simp)
      · omega
    · rw [if_neg h0]
      simp only [Option.some.injEq]
      constructor
      · intro _
        omega
      · intro _
        trivial
  · intro hk0
    rw [hprec, if_pos hk0, List.getD_eq_getElem tier dfltInterval (by omega)]
    rfl
  · rw [hfoll]
    by_cases h1 : k + 1 < tier.length
    · rw [if_pos h1]
      simp only [Option.some.injEq]
      constructor
      · intro he
        exact absurd he.symm (by simp)
      · omega
    · rw [if_neg h1]
      simp only [Option.some.injEq]
      constructor
      · intro _
        omega
      · intro _
        trivial
  · intro hk1
    rw [hfoll, if_pos hk1, List.getD_eq_getElem tier dfltInterval hk1]
    rfl

/-- Claim C6: one resolved tier with `M` matching intervals and `P` requested
points yields exactly `M * P` records — matched intervals without a
successor included. -/
theorem C6_row_count (file speaker : String) (tier : List Interval)
    (phones : List String) (desired_formants : List ℕ) (points : List ℚ)
    (include_following : Bool) (cv : String → Bool)
    (track : ℕ → ℚ → Option ℚ) :
    (process_tier file speaker tier phones desired_formants points
        include_following cv track).length =
      (tier.filter
        (fun interval => interval_matches phones cv interval.text)).length
        * points.length :=
  process_tier_from_length file speaker tier phones desired_formants points
    include_following cv track 0 tier

/-- Claim C7: with `ALL_VOWELS` requested and `"sil"` not among the explicit
labels, a `"sil"` interval never matches — whatever the vowel predicate
says about it — and consequently no record of the tier carries phone
`"sil"`. -/
theorem C7_sil_never_selected (phones : List String) (cv : String → Bool)
    (hA : "ALL_VOWELS" ∈ phones) (hs : "sil" ∉ phones)
    (file speaker : String) (tier : List Interval)
    (desired_formants : List ℕ) (points : List ℚ)
    (include_following : Bool) (track : ℕ → ℚ → Option ℚ)
    (hd : ∀ m ∈ desired_formants, m ∈ ([1, 2, 3, 4] : List ℕ)) :
    interval_matches phones cv "sil" = false ∧
      ∀ r ∈ process_tier file speaker tier phones desired_formants points
        include_following cv track,
        List.lookup "phone" r ≠ some (Val.s "sil") := by
  have hm : interval_matches phones cv "sil" = false := by
    simp [interval_matches, hs]
  refine ⟨hm, ?_⟩
  intro r hr
  obtain ⟨j, iv, p, hiv, hsel, rfl⟩ := mem_process_tier_from file speaker
    tier phones desired_formants points include_following cv track 0 tier
    r hr
  rw [lookup_build_phone file speaker tier j iv desired_formants track
    include_following p hd]
  intro he
  have htext : iv.text = "sil" := by simpa using he
  rw [htext, hm] at hsel
  exact Bool.false_ne_true hsel

/-- Claim C9: every interval whose label is in the explicit phone list is
selected, whatever the vowel predicate says about that label — in
particular a `"sil"` interval when `"sil"` is requested, since the
silence exclusion sits only in the `ALL_VOWELS` branch. -/
theorem C9_explicit_label_selected (phones : List String)
    (cv : String → Bool) (t : String) (h : t ∈ phones) :
    interval_matches phones cv t = true := by
  simp [interval_matches, h]

theorem foll_cond_true_iff (tier : List Interval) (i : ℕ) :
    foll_cond tier i true = true ↔
      i + 1 < tier.length ∧ (tier.getD (i + 1) dfltInterval).text ≠ "" := by
  simp [foll_cond]

/-- Claim C2, amended: with `include_following` enabled, the `following_F<n>`
fields are present in the row iff a successor interval exists AND its
label is non-empty (Python truthiness of the label); when present they are
obtained by applying the same relative position `p` to the successor's own
span, and when absent no sentinel is written under those keys. -/
theorem C2_following_fields (file speaker : String) (tier : List Interval)
    (i : ℕ) (interval : Interval) (desired_formants : List ℕ)
    (track : ℕ → ℚ → Option ℚ) (point : ℚ) (n : ℕ)
    (hd : ∀ m ∈ desired_formants, m ∈ ([1, 2, 3, 4] : List ℕ))
    (hn : n ∈ desired_formants) :
    (follkey n ∈ (build_formant_dict file speaker tier i interval
        desired_formants track true point).map Prod.fst ↔
      i + 1 < tier.length ∧ (tier.getD (i + 1) dfltInterval).text ≠ "")
    ∧ ((i + 1 < tier.length ∧ (tier.getD (i + 1) dfltInterval).text ≠ "") →
        List.lookup (follkey n) (build_formant_dict file speaker tier i
            interval desired_formants track true point) =
          some (trackVal track n
            (time_point (tier.getD (i + 1) dfltInterval).xmin
              (tier.getD (i + 1) dfltInterval).xmax point))) := by
  constructor
  · rw [mem_keys_build]
    constructor
    · rintro (hb | ⟨m, hm, he⟩ | ⟨hc, _⟩)
      · exact absurd hb (follkey_not_base n (hd n hn))
      · exact absurd he (fkey_ne_follkey m n (hd m hm) (hd n hn))
      · exact (foll_cond_true_iff tier i).mp hc
    · intro hs
      exact Or.inr (Or.inr ⟨(foll_cond_true_iff tier i).mpr hs, n, hn, rfl⟩)
  · intro hs
    exact lookup_build_follkey file speaker tier i interval
      desired_formants track true point hd n hn
      ((foll_cond_true_iff tier i).mpr hs)

/-- Claim C2 as stated is false: for the tier `[("a",0,1), ("",1,2)]` with
`include_following` enabled, the selected `"a"` interval has a successor
in the tier, yet its row omits `following_F1` — the guard also tests the
successor's label for Python truthiness, so an empty-labeled successor
drops the following-phone fields. -/
theorem C2_counterexample :
    process_tier "f" "s" [⟨"a", 0, 1⟩, ⟨"", 1, 2⟩] ["a"] [1] [1/2] true
        (fun _ => false) (fun _ _ => none) =
      [[("file", Val.s "f"), ("speaker", Val.s "s"), ("phone", Val.s "a"),
        ("preceding_phone", Val.pynone), ("following_phone", Val.s ""),
        ("point", Val.q (1/2)), ("interval_start", Val.q 0),
        ("interval_end", Val.q 1), ("F1", Val.nan)]]
    ∧ 0 + 1 < ([⟨"a", 0, 1⟩, ⟨"", 1, 2⟩] : List Interval).length
    ∧ follkey 1 ∉
        (([("file", Val.s "f"), ("speaker", Val.s "s"), ("phone", Val.s "a"),
          ("preceding_phone", Val.pynone), ("following_phone", Val.s ""),
          ("point", Val.q (1/2)), ("interval_start", Val.q 0),
          ("interval_end", Val.q 1), ("F1", Val.nan)] : Record).map
          Prod.fst) := by
  refine ⟨?_, by decide, by decide⟩
  rfl

/-- Claim C8: a run with more than three sample points fails with the
`tooManyPoints` configuration error, and a run whose audio and TextGrid
directories share no base names after the exclusion list fails with a
configuration error — in both cases before any table is produced. -/
theorem C8_config_errors (cfg : Config)
    (audio_bases textgrid_bases files_to_exclude order : List String)
    (grids : String → TextGrid) (tracks : String → ℕ → ℚ → Option ℚ) :
    (3 < cfg.points.length →
      main_run cfg audio_bases textgrid_bases files_to_exclude order grids
        tracks = Except.error ConfigError.tooManyPoints)
    ∧ (matched_bases audio_bases textgrid_bases files_to_exclude = [] →
      ∃ e, main_run cfg audio_bases textgrid_bases files_to_exclude order
        grids tracks = Except.error e) := by
  constructor
  · intro h
    simp [main_run, h]
  · intro h
    by_cases hp : 3 < cfg.points.length
    · exact ⟨ConfigError.tooManyPoints, by simp [main_run, hp]⟩
    · exact ⟨ConfigError.noMatchedFiles, by simp [main_run, hp, h]⟩

/-- Claim C10: in combined output mode, when the first processed pair yields no
records, nothing at all is written (no header, no rows) and the remaining
pairs are never processed, whatever they would have yielded. -/
theorem C10_empty_first_no_output (cfg : Config) (first : FilePair)
    (rest : List FilePair) (h : extractPair cfg first = []) :
    combined_main cfg (first :: rest) = Except.ok none := by
  simp only [combined_main, h]

/-- Claim C1 fails on the code: the combined-mode header is inferred from the
first record of whichever file the set iteration yields first, so with the
same two files (one whose first row has following-phone columns, one
without) one processing order succeeds while the other raises `ValueError`
in the writer and aborts — the output content depends on processing
order. -/
theorem C1_order_dependent_output :
    (∃ out,
      combined_main ⟨["a"], [1], [1/2], true, fun _ => false⟩
        [⟨"s1_a", [("s1 phones", [⟨"a", 0, 1⟩, ⟨"t", 1, 2⟩])],
          fun _ _ => none⟩,
         ⟨"s1_b", [("s1 phones", [⟨"a", 0, 1⟩])], fun _ _ => none⟩] =
        Except.ok (some out))
    ∧ combined_main ⟨["a"], [1], [1/2], true, fun _ => false⟩
        [⟨"s1_b", [("s1 phones", [⟨"a", 0, 1⟩])], fun _ _ => none⟩,
         ⟨"s1_a", [("s1 phones", [⟨"a", 0, 1⟩, ⟨"t", 1, 2⟩])],
          fun _ _ => none⟩] =
        Except.error () :=
  ⟨⟨_, rfl⟩, rfl⟩

/-! Witnesses. -/

theorem C2_following_fields_witness :
    (1 : ℕ) ∈ ([1] : List ℕ) ∧
    List.lookup (follkey 1)
      (build_formant_dict "f" "s" [⟨"a", 0, 1⟩, ⟨"b", 1, 2⟩] 0 ⟨"a", 0, 1⟩
        [1] (fun _ _ => some 700) true (1/2)) = some (Val.q 700) :=
  ⟨by decide,
    (C2_following_fields "f" "s" [⟨"a", 0, 1⟩, ⟨"b", 1, 2⟩] 0 ⟨"a", 0, 1⟩
      [1] (fun _ _ => some 700) (1/2) 1 (by decide) (by decide)).2
      ⟨by decide, by decide⟩⟩

theorem C4_point_to_time_witness :
    (1 : ℕ) ∈ ([1] : List ℕ) ∧ 1 < ([1/4, 1/4] : List ℚ).length ∧
    List.lookup (fkey 1)
      (build_formant_dict "f" "s" [⟨"a", 1, 2⟩] 0 ⟨"a", 1, 2⟩ [1]
        (fun _ _ => some 500) false (1/4)) = some (Val.q 500) ∧
    List.lookup "point"
      ((([1/4, 1/4] : List ℚ).map (build_formant_dict "f" "s" [⟨"a", 1, 2⟩]
        0 ⟨"a", 1, 2⟩ [1] (fun _ _ => some 500) false)).get
        ⟨1, by decide⟩) = some (Val.q (1/4)) :=
  ⟨by decide, by decide,
    (C4_point_to_time "f" "s" [⟨"a", 1, 2⟩] 0 ⟨"a", 1, 2⟩ [1]
      (fun _ _ => some 500) false (1/4) [1/4, 1/4] 1 1 (by decide)
      (by decide) (by decide)).1,
    (C4_point_to_time "f" "s" [⟨"a", 1, 2⟩] 0 ⟨"a", 1, 2⟩ [1]
      (fun _ _ => some 500) false (1/4) [1/4, 1/4] 1 1 (by decide)
      (by decide) (by decide)).2.2.1⟩

theorem C5_neighbor_labels_witness :
    (1 : ℕ) < 3 ∧
    List.lookup "preceding_phone"
      (build_formant_dict "f" "s" [⟨"a", 0, 1⟩, ⟨"b", 1, 2⟩, ⟨"c", 2, 3⟩] 1
        ⟨"b", 1, 2⟩ [1] (fun _ _ => none) false (1/2)) =
      some (Val.s "a") ∧
    List.lookup "following_phone"
      (build_formant_dict "f" "s" [⟨"a", 0, 1⟩, ⟨"b", 1, 2⟩, ⟨"c", 2, 3⟩] 1
        ⟨"b", 1, 2⟩ [1] (fun _ _ => none) false (1/2)) =
      some (Val.s "c") :=
  ⟨by decide,
    (C5_neighbor_labels "f" "s" [⟨"a", 0, 1⟩, ⟨"b", 1, 2⟩, ⟨"c", 2, 3⟩] 1
      [1] (fun _ _ => none) false (1/2) (by decide) (by decide)).2.1
      (by decide),
    (C5_neighbor_labels "f" "s" [⟨"a", 0, 1⟩, ⟨"b", 1, 2⟩, ⟨"c", 2, 3⟩] 1
      [1] (fun _ _ => none) false (1/2) (by decide) (by decide)).2.2.2.1
      (by decide)⟩

theorem C7_sil_never_selected_witness :
    ("ALL_VOWELS" ∈ (["ALL_VOWELS"] : List String)) ∧
    ("sil" ∉ (["ALL_VOWELS"] : List String)) ∧
    interval_matches ["ALL_VOWELS"] (fun _ => true) "sil" = false :=
  ⟨by decide, by decide,
    (C7_sil_never_selected ["ALL_VOWELS"] (fun _ => true) (by decide)
      (by decide) "f" "s" [] [] [] false (fun _ _ => none) (by decide)).1⟩

theorem C8_config_errors_witness :
    3 < ([0, 0, 0, 0] : List ℚ).length ∧
    main_run ⟨["a"], [1], [0, 0, 0, 0], false, fun _ => false⟩ ["x"] ["x"]
      [] ["x"] (fun _ => []) (fun _ _ _ => none) =
      Except.error ConfigError.tooManyPoints ∧
    matched_bases ["x"] ["y"] [] = [] ∧
    (∃ e, main_run ⟨["a"], [1], [1/2], false, fun _ => false⟩ ["x"] ["y"]
      [] [] (fun _ => []) (fun _ _ _ => none) = Except.error e) :=
  ⟨by decide,
    (C8_config_errors ⟨["a"], [1], [0, 0, 0, 0], false, fun _ => false⟩
      ["x"] ["x"] [] ["x"] (fun _ => []) (fun _ _ _ => none)).1 (by decide),
    by decide,
    (C8_config_errors ⟨["a"], [1], [1/2], false, fun _ => false⟩
      ["x"] ["y"] [] [] (fun _ => []) (fun _ _ _ => none)).2 (by decide)⟩

theorem C9_explicit_label_selected_witness :
    ("sil" ∈ (["sil"] : List String)) ∧
    interval_matches ["sil"] (fun _ => true) "sil" = true :=
  ⟨by decide,
    C9_explicit_label_selected ["sil"] (fun _ => true) "sil" (by decide)⟩

theorem C10_empty_first_no_output_witness :
    extractPair ⟨["a"], [1], [1/2], true, fun _ => false⟩
      ⟨"s1_empty", [("s1 words", [⟨"a", 0, 1⟩])], fun _ _ => none⟩ = [] ∧
    combined_main ⟨["a"], [1], [1/2], true, fun _ => false⟩
      [⟨"s1_empty", [("s1 words", [⟨"a", 0, 1⟩])], fun _ _ => none⟩,
       ⟨"s1_rich", [("s1 phones", [⟨"a", 0, 1⟩])], fun _ _ => none⟩] =
      Except.ok none :=
  ⟨rfl,
    C10_empty_first_no_output ⟨["a"], [1], [1/2], true, fun _ => false⟩
      ⟨"s1_empty", [("s1 words", [⟨"a", 0, 1⟩])], fun _ _ => none⟩
      [⟨"s1_rich", [("s1 phones", [⟨"a", 0, 1⟩])], fun _ _ => none⟩] rfl⟩

end NYLE
